import Mathlib

/-!
Verification development for the team-invite backend.

The definitions below are a shallow embedding of the core of the
repository: the redemption ledger (backend/app/routers/public.py,
use_redeem_code and direct_redeem), the seat availability resolver
(get_available_team in public.py and the team query in tasks.py),
the bounded invite queue and batch dispatcher (backend/app/tasks.py),
and the chunked batch_invite helper ("release 2" chatgpt_api.py).

Database tables are embedded as Lean lists of records, in the row order
the corresponding SELECT returns them (the queries carry no ORDER BY, so
that order is an unspecified parameter of the model).  Timestamps are
naturals.  The external provisioning API is an oracle function returning
Except: the wrapper in services/chatgpt_api.py converts every HTTP,
timeout and network failure into a ChatGPTAPIError, which is the one
error type the dispatcher catches.  SQLAlchemy sessions are embedded by
explicit state passing: an endpoint that raises before db.commit() has
its uncommitted writes rolled back (get_db closes the session without
committing), which the embedding reflects by returning the pre-call
table state on those paths.
-/

deriving instance DecidableEq for Except

namespace TeamInvite

/-! ## Data model (backend/app/models.py) -/

/-- Row of the redeem_codes table (models.py, class RedeemCode). -/
structure RedeemCode where
  id : Nat
  code : String
  is_active : Bool
  expires_at : Option Nat
  used_count : Nat
  max_uses : Nat
  group_id : Option Nat
deriving Repr, DecidableEq

/-- Row of the teams table (models.py, class Team); only the fields the
core reads. -/
structure Team where
  id : Nat
  name : String
  account_id : String
  max_seats : Nat
  group_id : Option Nat
  is_active : Bool
deriving Repr, DecidableEq

/-- Row of the team_groups table (models.py, class TeamGroup). -/
structure TeamGroup where
  id : Nat
  name : String
deriving Repr, DecidableEq

/-- Python str.upper() restricted to the ASCII mapping used by the code
values of this repository. -/
def pyUpper (s : String) : String := ⟨s.data.map Char.toUpper⟩

/-- Python str.lower() restricted to the ASCII mapping used by the email
values of this repository. -/
def pyLower (s : String) : String := ⟨s.data.map Char.toLower⟩

/-- Drop whitespace at both ends of a character list. -/
def trimChars (l : List Char) : List Char :=
  ((l.dropWhile Char.isWhitespace).reverse.dropWhile Char.isWhitespace).reverse

/-- Python str.strip(). -/
def pyStrip (s : String) : String := ⟨trimChars s.data⟩

/-- Python truthiness of an optional integer: None and 0 are falsy. -/
def pyTruthyNat : Option Nat → Bool
  | none => false
  | some n => n != 0

/-- Python truthiness of an optional string: None and "" are falsy. -/
def pyTruthyStr : Option String → Bool
  | none => false
  | some s => s != ""

/-! ## Redemption ledger (public.py lines 380-406 / 503-530)

The endpoint normalises the submitted code value with .strip().upper(),
selects the row with that code and is_active == True under a row lock,
checks expiry and used_count, and then issues the conditional UPDATE
  SET used_count = used_count + 1 WHERE id = :id AND used_count < max_uses
failing with the exhausted error (and rolling back) when it affects zero
rows. -/

inductive ConsumeError
  | codeInvalid
  | codeExpired
  | codeExhausted
deriving Repr, DecidableEq

/-- The SELECT: first row whose code equals the normalised key and whose
is_active flag is set. -/
def lookupActiveCode (db : List RedeemCode) (key : String) : Option RedeemCode :=
  db.find? (fun c => c.code == key && c.is_active)

/-- The expiry test of the endpoint: code.expires_at and
code.expires_at < datetime.utcnow(). -/
def isExpired (c : RedeemCode) (now : Nat) : Bool :=
  match c.expires_at with
  | some t => decide (t < now)
  | none => false

/-- Number of rows the conditional UPDATE affects. -/
def updateRowcount (db : List RedeemCode) (cid : Nat) : Nat :=
  (db.filter (fun x => x.id == cid && decide (x.used_count < x.max_uses))).length

/-- Table state after the conditional UPDATE. -/
def applyUpdate (db : List RedeemCode) (cid : Nat) : List RedeemCode :=
  db.map (fun x =>
    if x.id == cid && decide (x.used_count < x.max_uses) then
      { x with used_count := x.used_count + 1 }
    else x)

/-- The portion of consume after the row has been read: expiry check,
exhaustion check, then the atomic conditional increment.  The table
argument is the state the UPDATE actually runs against, so the statement
also covers the race in which that state no longer matches the row read
earlier (then the UPDATE affects zero rows and the call fails with the
exhausted error, rolling back). -/
def consumeAfterRead (db : List RedeemCode) (c : RedeemCode) (now : Nat) :
    Except ConsumeError RedeemCode × List RedeemCode :=
  if isExpired c now then
    (.error .codeExpired, db)
  else if c.max_uses ≤ c.used_count then
    (.error .codeExhausted, db)
  else if updateRowcount db c.id = 0 then
    (.error .codeExhausted, db)
  else
    (.ok { c with used_count := c.used_count + 1 }, applyUpdate db c.id)

/-- One redemption-ledger consume call (public.py lines 380-406): under
the row lock the read and the conditional increment form one atomic
step, so a sequence of calls embeds any concurrent interleaving. -/
def consume (db : List RedeemCode) (codeVal : String) (now : Nat) :
    Except ConsumeError RedeemCode × List RedeemCode :=
  match lookupActiveCode db (pyUpper (pyStrip codeVal)) with
  | none => (.error .codeInvalid, db)
  | some c => consumeAfterRead db c now

/-- n sequential consume calls for the same code value, collecting each
call's result and threading the table state. -/
def consumeMany (db : List RedeemCode) (codeVal : String) (now : Nat) :
    Nat → List (Except ConsumeError RedeemCode) × List RedeemCode
  | 0 => ([], db)
  | n + 1 =>
    let step := consume db codeVal now
    let rest := consumeMany step.2 codeVal now n
    (step.1 :: rest.1, rest.2)

/-- Number of successful results in a list of consume outcomes. -/
def countSuccess (rs : List (Except ConsumeError RedeemCode)) : Nat :=
  rs.countP (fun r => match r with | .ok _ => true | .error _ => false)

/-- Number of exhausted failures in a list of consume outcomes. -/
def countExhausted (rs : List (Except ConsumeError RedeemCode)) : Nat :=
  rs.countP (fun r => match r with | .error .codeExhausted => true | _ => false)

/-! ## Seat availability resolver (public.py get_available_team, lines 82-118)

The query carries no ORDER BY, so the list order of the teams argument
is the (unspecified) result-set order; the function walks that order and
returns the first active in-scope team whose synced member count is
below max_seats.  The occupancy snapshot is the function occ from team
id to the TeamMember count of that team. -/

def get_available_team (teams : List Team) (tgroups : List TeamGroup) (occ : Nat → Nat)
    (group_id : Option Nat) (group_name : Option String) : Option Team :=
  let active := teams.filter (fun t => t.is_active)
  if pyTruthyNat group_id then
    (active.filter (fun t => t.group_id == group_id)).find?
      (fun t => decide (occ t.id < t.max_seats))
  else if pyTruthyStr group_name then
    match tgroups.find? (fun gr => some gr.name == group_name) with
    | some gr =>
      (active.filter (fun t => t.group_id == some gr.id)).find?
        (fun t => decide (occ t.id < t.max_seats))
    | none => none
  else
    active.find? (fun t => decide (occ t.id < t.max_seats))

/-- The team query of process_invite_batch (tasks.py lines 80-97):
active teams, optionally filtered to the group, outer-joined with the
member counts, filtered to coalesce(member_count, 0) < max_seats, and
the first row of the (unordered) result taken.  The group key 0 stands
for the Python value produced by item.get("group_id") or 0. -/
def findAvailableTeam (teams : List Team) (occ : Nat → Nat) (gid : Nat) : Option Team :=
  (teams.filter (fun t => t.is_active && (gid == 0 || t.group_id == some gid))).find?
    (fun t => decide (occ t.id < t.max_seats))

/-! ## Invite queue (tasks.py lines 18-56) -/

/-- A task dict placed on the asyncio queue by enqueue_invite. -/
structure QItem where
  queue_id : String
  email : String
  redeem_code : Option String
  group_id : Option Nat
  linuxdo_user_id : Option Nat
deriving Repr, DecidableEq

inductive QueueError
  | queueFull
deriving Repr, DecidableEq

/-- Capacity of the asyncio.Queue created by get_invite_queue. -/
def queueMaxSize : Nat := 5000

/-- enqueue_invite (tasks.py lines 25-45): build the queue id from the
timestamp and the current queue size, build the task, and put_nowait it;
if the buffer already holds maxsize items, put_nowait raises QueueFull
and the call fails immediately (it never waits). -/
def enqueue_invite (q : List QItem) (email redeem_code : String)
    (group_id linuxdo_user_id : Option Nat) (ts : String) :
    Except QueueError (String × List QItem) :=
  let n := q.length
  let queue_id := "q-" ++ ts ++ "-" ++ toString n
  let task : QItem :=
    { queue_id := queue_id
      email := pyStrip (pyLower email)
      redeem_code := some redeem_code
      group_id := group_id
      linuxdo_user_id := linuxdo_user_id }
  if queueMaxSize ≤ q.length then
    .error .queueFull
  else
    .ok (queue_id, q ++ [task])

/-! ## Batch dispatcher (tasks.py process_invite_batch, lines 59-172) -/

/-- Status of a persisted record (InviteStatus / InviteQueueStatus). -/
inductive RecStatus
  | success
  | failed
deriving Repr, DecidableEq

/-- A persisted per-item outcome: an InviteRecord row, or an InviteQueue
row for the capacity-exhaustion failure path (which has no team). -/
structure Record where
  email : String
  team_id : Option Nat
  status : RecStatus
  error_message : Option String
deriving Repr, DecidableEq

/-- The error message written when no team in the group has a free
seat. -/
def noCapacityMsg : String := "所有 Team 已满"

/-- One call issued to the external provisioning API: the target
account and the invited email addresses. -/
abbrev ProvCall := String × List String

/-- The wrapper raises ChatGPTAPIError for every failing call; the
oracle maps each call to its outcome (the String is the error
message). -/
abbrev ApiOracle := String → List String → Except String Unit

/-- The group key of a queue item: item.get("group_id") or 0. -/
def itemGid (i : QItem) : Nat := i.group_id.getD 0

/-- Keys of a Python dict built by insertion: walk the list keeping the
first occurrence of each key, carrying the keys already seen. -/
def dedupFirstAux : List Nat → List Nat → List Nat
  | [], _ => []
  | x :: xs, seen =>
    if seen.contains x then dedupFirstAux xs seen
    else x :: dedupFirstAux xs (x :: seen)

/-- Group ids of the batch in first-occurrence order (the key order of
the groups dict of process_invite_batch). -/
def dedupFirst (l : List Nat) : List Nat := dedupFirstAux l []

/-- Items of the batch belonging to one group, in arrival order. -/
def groupItems (gid : Nat) (batch : List QItem) : List QItem :=
  batch.filter (fun i => itemGid i == gid)

/-- Per-group body of process_invite_batch (tasks.py lines 80-167):
resolve a team with a free seat; if none, persist a FAILED InviteQueue
row per item with the no-capacity message and issue no call; otherwise
issue one bulk call with all of the group's emails; on its success
persist a SUCCESS InviteRecord per item; on ChatGPTAPIError re-issue the
call once per item individually, persisting per item either a SUCCESS
record or a FAILED record carrying str(e2)[:200]. -/
def processGroup (teams : List Team) (occ : Nat → Nat) (api : ApiOracle)
    (gid : Nat) (items : List QItem) : List Record × List ProvCall :=
  match findAvailableTeam teams occ gid with
  | none =>
    (items.map (fun i => { email := i.email, team_id := none,
                           status := .failed, error_message := some noCapacityMsg }), [])
  | some t =>
    match api t.account_id (items.map (fun i => i.email)) with
    | .ok _ =>
      (items.map (fun i => { email := i.email, team_id := some t.id,
                             status := .success, error_message := none }),
       [(t.account_id, items.map (fun i => i.email))])
    | .error _ =>
      (items.map (fun i =>
          match api t.account_id [i.email] with
          | .ok _ => { email := i.email, team_id := some t.id,
                       status := .success, error_message := none }
          | .error m => { email := i.email, team_id := some t.id,
                          status := .failed, error_message := some (m.take 200) }),
       (t.account_id, items.map (fun i => i.email)) ::
         items.map (fun i => (t.account_id, [i.email])))

/-- process_invite_batch: group the batch by target group id (dict
insertion order) and process each group, accumulating the persisted
records and the provisioning calls, in order. -/
def process_invite_batch (teams : List Team) (occ : Nat → Nat) (api : ApiOracle)
    (batch : List QItem) : List Record × List ProvCall :=
  let gids := dedupFirst (batch.map itemGid)
  ((gids.map (fun gd => (processGroup teams occ api gd (groupItems gd batch)).1)).flatten,
   (gids.map (fun gd => (processGroup teams occ api gd (groupItems gd batch)).2)).flatten)

/-! ## Redeem endpoint (public.py use_redeem_code, lines 358-459)

Embedded from the code-validation step onward (the preceding token and
rate-limit guards live outside the claims).  The returned triple is the
HTTP outcome, the provisioning calls issued before the response was
returned, and the redeem_codes table state once the session ends (on an
HTTPException the session closes without commit, so the uncommitted
increment rolls back to the input state). -/

structure RedeemResponseM where
  success : Bool
  message : String
  team_name : Option String
deriving Repr, DecidableEq

inductive RedeemHttpError
  | badRequest (detail : String)
  | serverError (detail : String)
deriving Repr, DecidableEq

/-- Message detail of the three ledger failures. -/
def consumeErrDetail : ConsumeError → String
  | .codeInvalid => "兑换码无效"
  | .codeExpired => "兑换码已过期"
  | .codeExhausted => "兑换码已用完"

def use_redeem_code (codes : List RedeemCode) (teams : List Team)
    (tgroups : List TeamGroup) (occ : Nat → Nat) (api : ApiOracle)
    (email codeVal : String) (now : Nat) :
    Except RedeemHttpError RedeemResponseM × List ProvCall × List RedeemCode :=
  match consume codes codeVal now with
  | (.error e, codes1) => (.error (.badRequest (consumeErrDetail e)), [], codes1)
  | (.ok c, codes1) =>
    let team? :=
      if pyTruthyNat c.group_id then
        get_available_team teams tgroups occ c.group_id none
      else
        get_available_team teams tgroups occ none (some "LinuxDO")
    match team? with
    | none => (.error (.badRequest "所有 Team 已满，请稍后再试"), [], codes)
    | some t =>
      let addr := pyStrip (pyLower email)
      match api t.account_id [addr] with
      | .ok _ =>
        (.ok { success := true, message := "邀请已发送！请查收邮箱并接受邀请",
               team_name := some t.name },
         [(t.account_id, [addr])], codes1)
      | .error m =>
        (.error (.badRequest ("邀请失败: " ++ m)), [(t.account_id, [addr])], codes)

/-! ## Worker loop (tasks.py invite_worker, lines 205-246)

One iteration of the while-True body, abstracted over what the awaits
inside the cycle did.  Collection timeout is caught by the inner
except asyncio.TimeoutError and continues; CancelledError (a
BaseException, uncaught by except Exception) breaks the loop; any other
exception is caught by the outer except Exception, logged, and the loop
continues.  process_invite_batch additionally catches its own
exceptions (lines 169-172), which the total function processGroup
reflects. -/

inductive CycleEvent
  | normal (batch : List QItem)
  | collectTimeout
  | raisedCancelled
  | raisedException (msg : String)
deriving Repr, DecidableEq

inductive LoopStep
  | continueLoop
  | exitLoop
deriving Repr, DecidableEq

/-- Outcome of one worker iteration given what happened inside it. -/
def invite_worker_step : CycleEvent → LoopStep
  | .raisedCancelled => .exitLoop
  | .normal _ => .continueLoop
  | .collectTimeout => .continueLoop
  | .raisedException _ => .continueLoop

/-- Run of the worker over a finite schedule of cycle events: returns
whether the loop exited and the batches it handed to
process_invite_batch. -/
def invite_worker_run : List CycleEvent → Bool × List (List QItem)
  | [] => (false, [])
  | ev :: evs =>
    match invite_worker_step ev with
    | .exitLoop => (true, [])
    | .continueLoop =>
      let rest := invite_worker_run evs
      (rest.1, (match ev with | .normal b => [b] | _ => []) ++ rest.2)

/-! ## Chunked batch_invite ("release 2" chatgpt_api.py, lines 135-166) -/

/-- Per-email result dict appended by batch_invite. -/
structure InviteResultM where
  email : String
  success : Bool
  error : Option String
deriving Repr, DecidableEq

/-- The chunks visited by for i in range(0, len(emails), batch_size),
written with a fuel argument (one unit per chunk; the list length is
always enough fuel when the step is positive). -/
def chunkListAux (bs : Nat) : Nat → List String → List (List String)
  | 0, _ => []
  | _, [] => []
  | fuel + 1, x :: xs => (x :: xs).take bs :: chunkListAux bs fuel ((x :: xs).drop bs)

/-- The chunks visited by for i in range(0, len(emails), batch_size).
For the degenerate step 0 (which Python rejects with ValueError before
looping) the result is junk, never used by the theorems. -/
def chunkList (bs : Nat) (xs : List String) : List (List String) :=
  if bs = 0 then [] else chunkListAux bs xs.length xs

/-- batch_invite: per chunk, one bulk invite call; on its success one
success entry per email of the chunk; on ChatGPTAPIError one individual
retry call per email of the chunk, recording success or the error
message of the retry. -/
def batch_invite (api : List String → Except String Unit) (emails : List String)
    (bs : Nat) : List InviteResultM :=
  ((chunkList bs emails).map (fun chunk =>
    match api chunk with
    | .ok _ => chunk.map (fun e => { email := e, success := true, error := none })
    | .error _ =>
      chunk.map (fun e =>
        match api [e] with
        | .ok _ => { email := e, success := true, error := none }
        | .error m => { email := e, success := false, error := some m }))).flatten

/-! ## Ledger lemmas -/

theorem countSuccess_cons_ok (c : RedeemCode) (rs : List (Except ConsumeError RedeemCode)) :
    countSuccess (.ok c :: rs) = countSuccess rs + 1 := by
  simp [countSuccess, List.countP_cons]

theorem countSuccess_cons_error (e : ConsumeError) (rs : List (Except ConsumeError RedeemCode)) :
    countSuccess (.error e :: rs) = countSuccess rs := by
  simp [countSuccess, List.countP_cons]

theorem countExhausted_cons_ok (c : RedeemCode) (rs : List (Except ConsumeError RedeemCode)) :
    countExhausted (.ok c :: rs) = countExhausted rs := by
  simp [countExhausted, List.countP_cons]

theorem countExhausted_cons_exh (rs : List (Except ConsumeError RedeemCode)) :
    countExhausted (.error .codeExhausted :: rs) = countExhausted rs + 1 := by
  simp [countExhausted, List.countP_cons]

theorem consume_single_success (v : String) (now : Nat) (c : RedeemCode)
    (hcode : c.code = pyUpper (pyStrip v)) (hact : c.is_active = true)
    (hexp : isExpired c now = false) (hlt : c.used_count < c.max_uses) :
    consume [c] v now =
      (.ok { c with used_count := c.used_count + 1 },
       [{ c with used_count := c.used_count + 1 }]) := by
  obtain ⟨i, cd, a, e, u, m, g⟩ := c
  simp only at hcode hact hexp hlt
  subst hcode hact
  simp [consume, lookupActiveCode, List.find?, consumeAfterRead, hexp,
    Nat.not_le.mpr hlt, updateRowcount, applyUpdate, hlt]

theorem consume_single_exhausted (v : String) (now : Nat) (c : RedeemCode)
    (hcode : c.code = pyUpper (pyStrip v)) (hact : c.is_active = true)
    (hexp : isExpired c now = false) (hge : c.max_uses ≤ c.used_count) :
    consume [c] v now = (.error .codeExhausted, [c]) := by
  obtain ⟨i, cd, a, e, u, m, g⟩ := c
  simp only at hcode hact hexp hge
  subst hcode hact
  simp [consume, lookupActiveCode, List.find?, consumeAfterRead, hexp, hge]

theorem consumeMany_single_aux (v : String) (now : Nat) :
    ∀ (n : Nat) (c : RedeemCode), c.code = pyUpper (pyStrip v) → c.is_active = true →
      isExpired c now = false → c.max_uses - c.used_count ≤ n → c.used_count ≤ c.max_uses →
      countSuccess (consumeMany [c] v now n).1 = c.max_uses - c.used_count ∧
      countExhausted (consumeMany [c] v now n).1 = n - (c.max_uses - c.used_count) ∧
      (consumeMany [c] v now n).2 = [{ c with used_count := c.max_uses }]
  | 0, c, _, _, _, hn, hle => by
    obtain ⟨i, cd, a, e, u, m, g⟩ := c
    simp only at hn hle
    have hu : u = m := by omega
    subst hu
    simp [consumeMany, countSuccess, countExhausted]
  | n + 1, c, hcode, hact, hexp, hn, hle => by
    obtain ⟨i, cd, a, e, u, m, g⟩ := c
    simp only at hcode hact hexp hn hle ⊢
    rcases Nat.lt_or_ge u m with hlt | hge
    · have hstep := consume_single_success v now ⟨i, cd, a, e, u, m, g⟩ hcode hact hexp hlt
      have ih := consumeMany_single_aux v now n ⟨i, cd, a, e, u + 1, m, g⟩
        hcode hact hexp (by simp only; omega) (by simp only; omega)
      simp only at ih
      simp only [consumeMany, hstep]
      obtain ⟨ih1, ih2, ih3⟩ := ih
      refine ⟨?_, ?_, ih3⟩
      · rw [countSuccess_cons_ok, ih1]
        omega
      · rw [countExhausted_cons_ok, ih2]
        omega
    · have hstep := consume_single_exhausted v now ⟨i, cd, a, e, u, m, g⟩ hcode hact hexp hge
      have hu : u = m := by omega
      subst hu
      have ih := consumeMany_single_aux v now n ⟨i, cd, a, e, u, u, g⟩
        hcode hact hexp (by simp only; omega) (by simp only; omega)
      simp only at ih
      simp only [consumeMany, hstep]
      obtain ⟨ih1, ih2, ih3⟩ := ih
      refine ⟨?_, ?_, ih3⟩
      · rw [countSuccess_cons_error, ih1]
      · rw [countExhausted_cons_exh, ih2]
        omega

theorem consumeMany_length (db : List RedeemCode) (v : String) (now : Nat) :
    ∀ n, (consumeMany db v now n).1.length = n := by
  intro n
  induction n generalizing db with
  | zero => rfl
  | succ n ih => simp [consumeMany, ih]

theorem consume_state_cases (db : List RedeemCode) (v : String) (now : Nat) :
    (consume db v now).2 = db ∨ ∃ cid, (consume db v now).2 = applyUpdate db cid := by
  unfold consume
  cases lookupActiveCode db (pyUpper (pyStrip v)) with
  | none => exact Or.inl rfl
  | some c =>
    unfold consumeAfterRead
    by_cases h1 : isExpired c now = true
    · simp [h1]
    · by_cases h2 : c.max_uses ≤ c.used_count
      · simp [h1, h2]
      · by_cases h3 : updateRowcount db c.id = 0
        · simp [h1, h2, h3]
        · simp only [h1, h2, h3, if_false, if_neg, Bool.false_eq_true]
          right
          exact ⟨c.id, by simp [h1, h2, h3]⟩

theorem consume_preserves_bound (db : List RedeemCode) (v : String) (now : Nat)
    (hinv : ∀ x ∈ db, x.used_count ≤ x.max_uses) :
    ∀ x ∈ (consume db v now).2, x.used_count ≤ x.max_uses := by
  rcases consume_state_cases db v now with h | ⟨cid, h⟩
  · rw [h]; exact hinv
  · rw [h]
    intro x hx
    simp only [applyUpdate, List.mem_map] at hx
    obtain ⟨y, hy, rfl⟩ := hx
    by_cases hc : (y.id == cid && decide (y.used_count < y.max_uses)) = true
    · rw [if_pos hc]
      simp only [Bool.and_eq_true, decide_eq_true_eq] at hc
      simp only
      omega
    · rw [if_neg hc]
      exact hinv y hy

/-! ## List helper lemmas -/

theorem find?_eq_head?_filter {α : Type} (p : α → Bool) (l : List α) :
    l.find? p = (l.filter p).head? := by
  induction l with
  | nil => rfl
  | cons a l ih =>
    by_cases hp : p a
    · simp [List.find?_cons, List.filter_cons, hp]
    · simp only [List.find?_cons, List.filter_cons, hp]
      simpa using ih

theorem find?_filter {α : Type} (q p : α → Bool) (l : List α) :
    (l.filter q).find? p = l.find? (fun x => q x && p x) := by
  induction l with
  | nil => rfl
  | cons a l ih =>
    by_cases hq : q a
    · by_cases hp : p a
      · simp [List.filter_cons, hq, List.find?_cons, hp]
      · simp [List.filter_cons, hq, List.find?_cons, hp, ih]
    · simp [List.filter_cons, hq, List.find?_cons, ih]

theorem filter_filter_and {α : Type} (q1 q2 : α → Bool) (l : List α) :
    (l.filter q1).filter q2 = l.filter (fun x => q1 x && q2 x) := by
  induction l with
  | nil => rfl
  | cons a l ih =>
    by_cases h1 : q1 a
    · by_cases h2 : q2 a
      · simp [List.filter_cons, h1, h2, ih]
      · simp [List.filter_cons, h1, h2, ih]
    · simp [List.filter_cons, h1, ih]

/-- First-fit characterisation of a seat search over a scoped team
list: the find? over the filtered scope is the head of the fully
filtered list (first fit in result-set order), every hit is an in-scope
team with a free seat from the original list, and the search is empty
exactly when no in-scope team has a free seat. -/
theorem scoped_first_fit (l : List Team) (q : Team → Bool) (occ : Nat → Nat) :
    ((l.filter q).find? (fun t => decide (occ t.id < t.max_seats)) =
      (l.filter (fun t => q t && decide (occ t.id < t.max_seats))).head?) ∧
    (∀ t, (l.filter q).find? (fun t => decide (occ t.id < t.max_seats)) = some t →
      q t = true ∧ occ t.id < t.max_seats ∧ t ∈ l) ∧
    ((l.filter q).find? (fun t => decide (occ t.id < t.max_seats)) = none ↔
      ∀ t ∈ l, q t = true → t.max_seats ≤ occ t.id) := by
  refine ⟨?_, ?_, ?_⟩
  · rw [find?_filter]
    exact find?_eq_head?_filter _ l
  · intro t ht
    rw [find?_filter] at ht
    have hp := List.find?_some ht
    have hm := List.mem_of_find?_eq_some ht
    simp only [Bool.and_eq_true, decide_eq_true_eq] at hp
    exact ⟨hp.1, hp.2, hm⟩
  · rw [find?_filter, List.find?_eq_none]
    constructor
    · intro h t hmem hq
      have := h t hmem
      simp only [Bool.and_eq_true, decide_eq_true_eq, hq, true_and] at this
      omega
    · intro h t hmem
      simp only [Bool.and_eq_true, decide_eq_true_eq, not_and]
      intro hq
      have := h t hmem hq
      omega

/-! ## Claim theorems: redemption ledger -/

/-- C1: for a fresh redemption code with max_uses = k (active, not
expired), any serialisation of N ≥ k concurrent consume calls — the
row lock makes each call one atomic step, so every interleaving is some
serialisation — yields exactly k successes and N − k CodeExhausted
failures, and used_count ends exactly at k.  The last conjunct is the
invariant: the only mutation is the conditional increment, which
preserves used_count ≤ max_uses on any table at every step. -/
theorem no_double_spend (v : String) (now k n : Nat) (c : RedeemCode)
    (hcode : c.code = pyUpper (pyStrip v)) (hact : c.is_active = true)
    (hexp : isExpired c now = false) (hk : c.max_uses = k) (h0 : c.used_count = 0)
    (hn : k ≤ n) :
    countSuccess (consumeMany [c] v now n).1 = k ∧
    countExhausted (consumeMany [c] v now n).1 = n - k ∧
    (consumeMany [c] v now n).1.length = n ∧
    (consumeMany [c] v now n).2 = [{ c with used_count := k }] ∧
    (∀ (db : List RedeemCode) (w : String) (t : Nat),
      (∀ x ∈ db, x.used_count ≤ x.max_uses) →
      ∀ x ∈ (consume db w t).2, x.used_count ≤ x.max_uses) := by
  subst hk
  have h := consumeMany_single_aux v now n c hcode hact hexp (by omega) (by omega)
  obtain ⟨h1, h2, h3⟩ := h
  refine ⟨by omega, by omega, consumeMany_length [c] v now n, h3,
    fun db w t hinv => consume_preserves_bound db w t hinv⟩

/-- Witness for C1 at the spec's concrete scenario: code ABC123 with
max_uses = 2 under 5 redemptions gives 2 successes and 3 exhausted
failures, ending at used_count = 2. -/
theorem no_double_spend_witness :
    countSuccess (consumeMany [⟨1, "ABC123", true, none, 0, 2, none⟩] "ABC123" 0 5).1 = 2 ∧
    countExhausted (consumeMany [⟨1, "ABC123", true, none, 0, 2, none⟩] "ABC123" 0 5).1 = 3 ∧
    (consumeMany [⟨1, "ABC123", true, none, 0, 2, none⟩] "ABC123" 0 5).2 =
      [⟨1, "ABC123", true, none, 2, 2, none⟩] ∧
    (∀ x ∈ (consume [⟨9, "ZZ", true, none, 1, 1, none⟩] "ZZ" 0).2,
      x.used_count ≤ x.max_uses) := by
  have h := no_double_spend "ABC123" 0 2 5 ⟨1, "ABC123", true, none, 0, 2, none⟩
    (by decide) rfl rfl rfl rfl (by decide)
  exact ⟨h.1, h.2.1, h.2.2.2.1, h.2.2.2.2 [⟨9, "ZZ", true, none, 1, 1, none⟩] "ZZ" 0
    (by decide)⟩

/-- C3: the ledger's failure classification.  A consume call fails with
CodeInvalid when no active row carries the normalised code value, with
CodeExpired when the row's expiry lies strictly in the past, and with
CodeExhausted when used_count has reached max_uses; the fourth conjunct
is the race case, where the row read looked valid but the conditional
UPDATE affects zero rows against the current table, which also fails
with CodeExhausted.  Each failure returns the table unchanged (the
embedding is a function, so each outcome is deterministic in the state
and the clock). -/
theorem consume_failure_modes :
    (∀ (db : List RedeemCode) (v : String) (now : Nat),
        lookupActiveCode db (pyUpper (pyStrip v)) = none →
        consume db v now = (.error .codeInvalid, db)) ∧
    (∀ (db : List RedeemCode) (v : String) (now : Nat) (c : RedeemCode),
        lookupActiveCode db (pyUpper (pyStrip v)) = some c →
        isExpired c now = true →
        consume db v now = (.error .codeExpired, db)) ∧
    (∀ (db : List RedeemCode) (v : String) (now : Nat) (c : RedeemCode),
        lookupActiveCode db (pyUpper (pyStrip v)) = some c →
        isExpired c now = false →
        c.max_uses ≤ c.used_count →
        consume db v now = (.error .codeExhausted, db)) ∧
    (∀ (db : List RedeemCode) (now : Nat) (c : RedeemCode),
        isExpired c now = false →
        c.used_count < c.max_uses →
        updateRowcount db c.id = 0 →
        consumeAfterRead db c now = (.error .codeExhausted, db)) := by
  refine ⟨?_, ?_, ?_, ?_⟩
  · intro db v now h
    unfold consume
    rw [h]
  · intro db v now c h hx
    unfold consume
    rw [h]
    simp [consumeAfterRead, hx]
  · intro db v now c h hexp hge
    unfold consume
    rw [h]
    simp [consumeAfterRead, hexp, hge]
  · intro db now c hexp hlt hrow
    simp [consumeAfterRead, hexp, Nat.not_le.mpr hlt, hrow]

/-- Witness for C3: each failure mode exercised at a concrete state —
an empty table, an expired code, an exhausted code, and the race where
a stale read passed validation but the current row is already at its
limit. -/
theorem consume_failure_modes_witness :
    consume [] "X" 0 = (.error .codeInvalid, []) ∧
    consume [⟨1, "EX", true, some 3, 0, 1, none⟩] "EX" 9 =
      (.error .codeExpired, [⟨1, "EX", true, some 3, 0, 1, none⟩]) ∧
    consume [⟨2, "FU", true, none, 1, 1, none⟩] "FU" 0 =
      (.error .codeExhausted, [⟨2, "FU", true, none, 1, 1, none⟩]) ∧
    consumeAfterRead [⟨3, "RC", true, none, 1, 1, none⟩] ⟨3, "RC", true, none, 0, 1, none⟩ 0 =
      (.error .codeExhausted, [⟨3, "RC", true, none, 1, 1, none⟩]) := by
  refine ⟨consume_failure_modes.1 [] "X" 0 (by decide), ?_, ?_, ?_⟩
  · exact consume_failure_modes.2.1 [⟨1, "EX", true, some 3, 0, 1, none⟩] "EX" 9
      ⟨1, "EX", true, some 3, 0, 1, none⟩ (by decide) (by decide)
  · exact consume_failure_modes.2.2.1 [⟨2, "FU", true, none, 1, 1, none⟩] "FU" 0
      ⟨2, "FU", true, none, 1, 1, none⟩ (by decide) rfl (by decide)
  · exact consume_failure_modes.2.2.2 [⟨3, "RC", true, none, 1, 1, none⟩] 0
      ⟨3, "RC", true, none, 0, 1, none⟩ rfl (by decide) (by decide)

/-! ## Claim theorems: seat availability resolver -/

/-- C5 counterexample: the team query carries no ORDER BY, so the
resolver takes the first row of the result set, not the candidate with
the smallest identifier.  With the result set listing team 2 before
team 1, both active with free seats, the resolver returns team 2 even
though the candidate with the smallest identifier is team 1. -/
theorem resolver_smallest_id_counterexample :
    get_available_team
        [⟨2, "B", "acc2", 5, none, true⟩, ⟨1, "A", "acc1", 5, none, true⟩]
        [] (fun _ => 0) none none =
      some ⟨2, "B", "acc2", 5, none, true⟩ ∧
    (⟨1, "A", "acc1", 5, none, true⟩ : Team).is_active = true ∧
    (0 : Nat) < 5 ∧ (1 : Nat) < 2 := by
  refine ⟨rfl, rfl, by decide, by decide⟩

/-- C5 amended: in every scope mode the resolver returns the first
active in-scope resource in result-set order whose occupancy is below
its capacity — sound (every hit is an active in-scope team with a free
seat), complete (none exactly when no active in-scope team has a free
seat), and deterministic for a fixed snapshot and result-set order —
but not necessarily the candidate with the smallest identifier.
Conjuncts 1-3: unscoped call (first-fit, soundness, completeness).
Conjuncts 4-6: pool-id scope.  Conjuncts 7-8: pool-name scope with the
group found (first-fit, completeness); conjunct 9: a missing group name
yields none outright.  Conjuncts 10-12: the dispatcher-side query
findAvailableTeam (first-fit, soundness, completeness). -/
theorem resolver_first_fit (teams : List Team) (tgroups : List TeamGroup)
    (occ : Nat → Nat) :
    (get_available_team teams tgroups occ none none =
      (teams.filter (fun t => t.is_active && decide (occ t.id < t.max_seats))).head?) ∧
    (∀ t, get_available_team teams tgroups occ none none = some t →
      t.is_active = true ∧ occ t.id < t.max_seats ∧ t ∈ teams) ∧
    (get_available_team teams tgroups occ none none = none ↔
      ∀ t ∈ teams, t.is_active = true → t.max_seats ≤ occ t.id) ∧
    (∀ g : Nat, g ≠ 0 →
      get_available_team teams tgroups occ (some g) none =
        (teams.filter (fun t =>
          (t.is_active && t.group_id == some g) &&
            decide (occ t.id < t.max_seats))).head?) ∧
    (∀ (g : Nat) (t : Team), g ≠ 0 →
      get_available_team teams tgroups occ (some g) none = some t →
      t.is_active = true ∧ t.group_id = some g ∧ occ t.id < t.max_seats ∧ t ∈ teams) ∧
    (∀ g : Nat, g ≠ 0 →
      (get_available_team teams tgroups occ (some g) none = none ↔
        ∀ t ∈ teams, t.is_active = true → t.group_id = some g →
          t.max_seats ≤ occ t.id)) ∧
    (∀ (nm : String) (gr : TeamGroup), nm ≠ "" →
      tgroups.find? (fun g2 => some g2.name == some nm) = some gr →
      get_available_team teams tgroups occ none (some nm) =
        (teams.filter (fun t =>
          (t.is_active && t.group_id == some gr.id) &&
            decide (occ t.id < t.max_seats))).head?) ∧
    (∀ (nm : String) (gr : TeamGroup), nm ≠ "" →
      tgroups.find? (fun g2 => some g2.name == some nm) = some gr →
      (get_available_team teams tgroups occ none (some nm) = none ↔
        ∀ t ∈ teams, t.is_active = true → t.group_id = some gr.id →
          t.max_seats ≤ occ t.id)) ∧
    (∀ nm : String, nm ≠ "" →
      tgroups.find? (fun g2 => some g2.name == some nm) = none →
      get_available_team teams tgroups occ none (some nm) = none) ∧
    (∀ gid : Nat, findAvailableTeam teams occ gid =
      (teams.filter (fun t =>
        (t.is_active && (gid == 0 || t.group_id == some gid)) &&
          decide (occ t.id < t.max_seats))).head?) ∧
    (∀ (gid : Nat) (t : Team), findAvailableTeam teams occ gid = some t →
      t.is_active = true ∧ (gid = 0 ∨ t.group_id = some gid) ∧
        occ t.id < t.max_seats ∧ t ∈ teams) ∧
    (∀ gid : Nat, (findAvailableTeam teams occ gid = none ↔
      ∀ t ∈ teams, t.is_active = true → (gid = 0 ∨ t.group_id = some gid) →
        t.max_seats ≤ occ t.id)) := by
  have hbase : get_available_team teams tgroups occ none none =
      (teams.filter (fun t => t.is_active)).find?
        (fun t => decide (occ t.id < t.max_seats)) := rfl
  have hgid : ∀ g : Nat, g ≠ 0 →
      get_available_team teams tgroups occ (some g) none =
        (teams.filter (fun t => t.is_active && t.group_id == some g)).find?
          (fun t => decide (occ t.id < t.max_seats)) := by
    intro g hg
    unfold get_available_team
    rw [if_pos (by simp [pyTruthyNat, hg]), ← filter_filter_and]
  have hname : ∀ (nm : String) (gr : TeamGroup), nm ≠ "" →
      tgroups.find? (fun g2 => some g2.name == some nm) = some gr →
      get_available_team teams tgroups occ none (some nm) =
        (teams.filter (fun t => t.is_active && t.group_id == some gr.id)).find?
          (fun t => decide (occ t.id < t.max_seats)) := by
    intro nm gr hnm hfind
    unfold get_available_team
    rw [if_neg (by simp [pyTruthyNat]),
      if_pos (by simpa [pyTruthyStr] using hnm), hfind, ← filter_filter_and]
  have hfat : ∀ gid : Nat, findAvailableTeam teams occ gid =
      (teams.filter (fun t => t.is_active && (gid == 0 || t.group_id == some gid))).find?
        (fun t => decide (occ t.id < t.max_seats)) := fun _ => rfl
  refine ⟨?_, ?_, ?_, ?_, ?_, ?_, ?_, ?_, ?_, ?_, ?_, ?_⟩
  · rw [hbase]
    exact (scoped_first_fit teams (fun t => t.is_active) occ).1
  · intro t ht
    rw [hbase] at ht
    exact (scoped_first_fit teams (fun t => t.is_active) occ).2.1 t ht
  · rw [hbase, (scoped_first_fit teams (fun t => t.is_active) occ).2.2]
  · intro g hg
    rw [hgid g hg]
    exact (scoped_first_fit teams
      (fun t => t.is_active && t.group_id == some g) occ).1
  · intro g t hg ht
    rw [hgid g hg] at ht
    have h := (scoped_first_fit teams
      (fun t => t.is_active && t.group_id == some g) occ).2.1 t ht
    have hq := h.1
    simp only [Bool.and_eq_true, beq_iff_eq] at hq
    exact ⟨hq.1, hq.2, h.2.1, h.2.2⟩
  · intro g hg
    rw [hgid g hg, (scoped_first_fit teams
      (fun t => t.is_active && t.group_id == some g) occ).2.2]
    constructor
    · intro h t hm ha hgr
      exact h t hm (by simp [ha, hgr])
    · intro h t hm hq
      simp only [Bool.and_eq_true, beq_iff_eq] at hq
      exact h t hm hq.1 hq.2
  · intro nm gr hnm hfind
    rw [hname nm gr hnm hfind]
    exact (scoped_first_fit teams
      (fun t => t.is_active && t.group_id == some gr.id) occ).1
  · intro nm gr hnm hfind
    rw [hname nm gr hnm hfind, (scoped_first_fit teams
      (fun t => t.is_active && t.group_id == some gr.id) occ).2.2]
    constructor
    · intro h t hm ha hgr
      exact h t hm (by simp [ha, hgr])
    · intro h t hm hq
      simp only [Bool.and_eq_true, beq_iff_eq] at hq
      exact h t hm hq.1 hq.2
  · intro nm hnm hfind
    unfold get_available_team
    rw [if_neg (by simp [pyTruthyNat]),
      if_pos (by simpa [pyTruthyStr] using hnm), hfind]
  · intro gid
    rw [hfat gid]
    exact (scoped_first_fit teams
      (fun t => t.is_active && (gid == 0 || t.group_id == some gid)) occ).1
  · intro gid t ht
    rw [hfat gid] at ht
    have h := (scoped_first_fit teams
      (fun t => t.is_active && (gid == 0 || t.group_id == some gid)) occ).2.1 t ht
    have hq := h.1
    simp only [Bool.and_eq_true, Bool.or_eq_true, beq_iff_eq] at hq
    exact ⟨hq.1, hq.2, h.2.1, h.2.2⟩
  · intro gid
    rw [hfat gid, (scoped_first_fit teams
      (fun t => t.is_active && (gid == 0 || t.group_id == some gid)) occ).2.2]
    constructor
    · intro h t hm ha hsc
      refine h t hm ?_
      simp only [Bool.and_eq_true, Bool.or_eq_true, beq_iff_eq, ha, true_and]
      exact hsc
    · intro h t hm hq
      simp only [Bool.and_eq_true, Bool.or_eq_true, beq_iff_eq] at hq
      exact h t hm hq.1 hq.2

/-- Witness for the amended C5 theorem: a three-team table (team 1 in
group 5 with a free seat, team 2 in group 9 named LinuxDO with a free
seat, team 3 ungrouped and full) exercising every scope mode: unscoped
first fit, pool-id scope hit and exhausted-scope none, pool-name scope
hit through the LinuxDO group, missing-group-name none, and the
dispatcher-side query hit and none. -/
theorem resolver_first_fit_witness :
    get_available_team
        [⟨1, "A", "accA", 2, some 5, true⟩, ⟨2, "B", "accB", 2, some 9, true⟩,
         ⟨3, "C", "accC", 1, none, true⟩]
        [⟨9, "LinuxDO"⟩] (fun j => if j = 3 then 1 else 0) none none =
      some ⟨1, "A", "accA", 2, some 5, true⟩ ∧
    get_available_team
        [⟨1, "A", "accA", 2, some 5, true⟩, ⟨2, "B", "accB", 2, some 9, true⟩,
         ⟨3, "C", "accC", 1, none, true⟩]
        [⟨9, "LinuxDO"⟩] (fun j => if j = 3 then 1 else 0) (some 9) none =
      some ⟨2, "B", "accB", 2, some 9, true⟩ ∧
    get_available_team
        [⟨1, "A", "accA", 2, some 5, true⟩, ⟨2, "B", "accB", 2, some 9, true⟩,
         ⟨3, "C", "accC", 1, none, true⟩]
        [⟨9, "LinuxDO"⟩] (fun j => if j = 3 then 1 else 0) (some 7) none = none ∧
    get_available_team
        [⟨1, "A", "accA", 2, some 5, true⟩, ⟨2, "B", "accB", 2, some 9, true⟩,
         ⟨3, "C", "accC", 1, none, true⟩]
        [⟨9, "LinuxDO"⟩] (fun j => if j = 3 then 1 else 0) none (some "LinuxDO") =
      some ⟨2, "B", "accB", 2, some 9, true⟩ ∧
    get_available_team
        [⟨1, "A", "accA", 2, some 5, true⟩, ⟨2, "B", "accB", 2, some 9, true⟩,
         ⟨3, "C", "accC", 1, none, true⟩]
        [⟨9, "LinuxDO"⟩] (fun j => if j = 3 then 1 else 0) none (some "Nope") = none ∧
    findAvailableTeam
        [⟨1, "A", "accA", 2, some 5, true⟩, ⟨2, "B", "accB", 2, some 9, true⟩,
         ⟨3, "C", "accC", 1, none, true⟩]
        (fun j => if j = 3 then 1 else 0) 5 =
      some ⟨1, "A", "accA", 2, some 5, true⟩ ∧
    findAvailableTeam
        [⟨1, "A", "accA", 2, some 5, true⟩, ⟨2, "B", "accB", 2, some 9, true⟩,
         ⟨3, "C", "accC", 1, none, true⟩]
        (fun j => if j = 3 then 1 else 0) 7 = none := by
  obtain ⟨c1, c2, c3, c4, c5, c6, c7, c8, c9, c10, c11, c12⟩ :=
    resolver_first_fit
      [⟨1, "A", "accA", 2, some 5, true⟩, ⟨2, "B", "accB", 2, some 9, true⟩,
       ⟨3, "C", "accC", 1, none, true⟩]
      [⟨9, "LinuxDO"⟩] (fun j => if j = 3 then 1 else 0)
  refine ⟨by rw [c1]; rfl,
    by rw [c4 9 (by decide)]; rfl,
    (c6 7 (by decide)).mpr (by decide),
    by rw [c7 "LinuxDO" ⟨9, "LinuxDO"⟩ (by decide) (by decide)]; rfl,
    c9 "Nope" (by decide) (by decide),
    by rw [c10 5]; rfl,
    (c12 7).mpr (by decide)⟩

/-! ## Claim theorems: invite queue -/

/-- C6: enqueue_invite is a total function of the queue state (it never
waits): when the buffer already holds max_size items it fails
immediately with QueueFull, and otherwise it appends the new task at
the tail of the FIFO buffer and returns its queue id. -/
theorem enqueue_never_blocks (q : List QItem) (email rc : String)
    (gid luid : Option Nat) (ts : String) :
    (queueMaxSize ≤ q.length →
      enqueue_invite q email rc gid luid ts = .error .queueFull) ∧
    (q.length < queueMaxSize →
      ∃ qid task, enqueue_invite q email rc gid luid ts = .ok (qid, q ++ [task]) ∧
        task.queue_id = qid ∧ task.email = pyStrip (pyLower email) ∧
        task.redeem_code = some rc) := by
  constructor
  · intro h
    simp [enqueue_invite, h]
  · intro h
    exact ⟨"q-" ++ ts ++ "-" ++ toString q.length,
      ⟨"q-" ++ ts ++ "-" ++ toString q.length, pyStrip (pyLower email), some rc, gid, luid⟩,
      by simp [enqueue_invite, Nat.not_le.mpr h], rfl, rfl, rfl⟩

/-- Witness for C6: a full buffer of 5000 items rejects immediately with
QueueFull, and an empty buffer accepts and appends at the tail. -/
theorem enqueue_never_blocks_witness :
    enqueue_invite (List.replicate 5000 ⟨"q", "e", none, none, none⟩)
        "A@x.com " "C" none none "t" = .error .queueFull ∧
    (∃ qid task,
      enqueue_invite [] "A@x.com " "C" none none "t" = .ok (qid, [] ++ [task]) ∧
      task.queue_id = qid ∧ task.email = pyStrip (pyLower "A@x.com ") ∧
      task.redeem_code = some "C") := by
  refine ⟨(enqueue_never_blocks _ "A@x.com " "C" none none "t").1
      (by rw [List.length_replicate]; exact Nat.le_refl 5000),
    (enqueue_never_blocks [] "A@x.com " "C" none none "t").2
      (by simp [queueMaxSize])⟩

/-! ## Dispatcher helper lemmas -/

/-- Every provisioning call a group emits carries only emails of that
group's items: the bulk call carries exactly the group's emails, the
per-item retry calls carry one each. -/
theorem processGroup_calls_emails (teams : List Team) (occ : Nat → Nat) (api : ApiOracle)
    (gid : Nat) (items : List QItem) :
    ∀ c ∈ (processGroup teams occ api gid items).2,
      ∀ e ∈ c.2, e ∈ items.map (fun i => i.email) := by
  intro c hc e he
  cases hfind : findAvailableTeam teams occ gid with
  | none => simp [processGroup, hfind] at hc
  | some t =>
    simp only [processGroup, hfind] at hc
    cases hapi : api t.account_id (items.map fun i => i.email) with
    | ok u =>
      simp only [hapi, List.mem_singleton] at hc
      subst hc
      exact he
    | error m =>
      simp only [hapi, List.mem_cons, List.mem_map] at hc
      rcases hc with rfl | ⟨i, hi, rfl⟩
      · exact he
      · simp only [List.mem_singleton] at he
        subst he
        exact List.mem_map.mpr ⟨i, hi, rfl⟩

/-- When every group of the schedule resolves a team and its bulk call
succeeds, the emitted calls are exactly one bulk call per group, in
group order, carrying all and only that group's emails. -/
theorem flatten_calls_of_resolved (teams : List Team) (occ : Nat → Nat) (api : ApiOracle)
    (batch : List QItem) :
    ∀ gs : List Nat,
      (∀ g ∈ gs, ∃ t, findAvailableTeam teams occ g = some t ∧
        api t.account_id ((groupItems g batch).map (fun i => i.email)) = .ok ()) →
      (gs.map (fun g => (processGroup teams occ api g (groupItems g batch)).2)).flatten =
        gs.map (fun g =>
          (((findAvailableTeam teams occ g).map (fun t => t.account_id)).getD "",
           (groupItems g batch).map (fun i => i.email)))
  | [], _ => rfl
  | g :: gs, h => by
    obtain ⟨t, hft, hok⟩ := h g (List.mem_cons_self g gs)
    have ih := flatten_calls_of_resolved teams occ api batch gs
      (fun g2 hg2 => h g2 (List.mem_cons_of_mem g hg2))
    have hg : (processGroup teams occ api g (groupItems g batch)).2 =
        [(t.account_id, (groupItems g batch).map (fun i => i.email))] := by
      simp [processGroup, hft, hok]
    simp only [List.map_cons, List.flatten_cons, hg, ih, hft, List.singleton_append]
    rfl

/-! ## Claim theorems: batch dispatcher -/

/-- C2 counterexample: a pool with one active team of capacity 1 and
occupancy 0 (total spare capacity K = 1) receives a batch of N = 2
distinct subjects; the dispatcher resolves that team once for the whole
group and bulk-invites both subjects, so both records end Success — not
exactly K = 1 of them, contradicting the no-oversell claim. -/
theorem dispatch_oversell_counterexample :
    ((process_invite_batch [⟨1, "T1", "acc1", 1, none, true⟩] (fun _ => 0)
        (fun _ _ => .ok ())
        [⟨"q1", "a@x.com", some "C", none, none⟩,
         ⟨"q2", "b@x.com", some "C", none, none⟩]).1.countP
      (fun r => r.status == RecStatus.success)) = 2 ∧
    ([⟨1, "T1", "acc1", 1, none, true⟩] : List Team).foldl
      (fun s t => s + t.max_seats) 0 = 1 := by
  exact ⟨by decide, by decide⟩

/-- C2 amended: per drained group, when no in-scope resource has a free
seat, every item of the group is marked Failed with the no-capacity
message, one persisted record per item, and no provisioning call is
issued (capacity exhaustion is never retried); but when some resource
reports at least one free seat, the entire group is sent to it in one
bulk call, so on success every item of the group ends Success — the
number of successes is bounded by the group size, not by the pool's
total spare capacity. -/
theorem dispatch_capacity_behaviour (teams : List Team) (occ : Nat → Nat)
    (api : ApiOracle) (gid : Nat) (items : List QItem) :
    (findAvailableTeam teams occ gid = none →
      processGroup teams occ api gid items =
        (items.map (fun i => { email := i.email, team_id := none, status := .failed,
                               error_message := some noCapacityMsg }), [])) ∧
    (∀ t, findAvailableTeam teams occ gid = some t →
      api t.account_id (items.map (fun i => i.email)) = .ok () →
      processGroup teams occ api gid items =
        (items.map (fun i => { email := i.email, team_id := some t.id, status := .success,
                               error_message := none }),
         [(t.account_id, items.map (fun i => i.email))])) := by
  constructor
  · intro h
    simp [processGroup, h]
  · intro t h hok
    simp [processGroup, h, hok]

/-- Witness for the amended C2 theorem: a full pool fails the whole
group with the no-capacity message and no call; a pool with one free
seat accepts a whole group of two subjects in one successful call. -/
theorem dispatch_capacity_behaviour_witness :
    processGroup [⟨1, "T1", "acc1", 1, none, true⟩] (fun _ => 1) (fun _ _ => .ok ()) 0
        [⟨"q1", "a@x.com", some "C", none, none⟩] =
      ([{ email := "a@x.com", team_id := none, status := .failed,
          error_message := some noCapacityMsg }], []) ∧
    processGroup [⟨1, "T1", "acc1", 1, none, true⟩] (fun _ => 0) (fun _ _ => .ok ()) 0
        [⟨"q1", "a@x.com", some "C", none, none⟩,
         ⟨"q2", "b@x.com", some "C", none, none⟩] =
      ([{ email := "a@x.com", team_id := some 1, status := .success, error_message := none },
        { email := "b@x.com", team_id := some 1, status := .success, error_message := none }],
       [("acc1", ["a@x.com", "b@x.com"])]) := by
  constructor
  · exact (dispatch_capacity_behaviour [⟨1, "T1", "acc1", 1, none, true⟩] (fun _ => 1)
      (fun _ _ => .ok ()) 0 [⟨"q1", "a@x.com", some "C", none, none⟩]).1 (by decide)
  · exact (dispatch_capacity_behaviour [⟨1, "T1", "acc1", 1, none, true⟩] (fun _ => 0)
      (fun _ _ => .ok ()) 0
      [⟨"q1", "a@x.com", some "C", none, none⟩,
       ⟨"q2", "b@x.com", some "C", none, none⟩]).2
      ⟨1, "T1", "acc1", 1, none, true⟩ (by decide) (by decide)

/-- C7: a drain cycle partitions its batch by target pool group.  First
conjunct (unconditional): every provisioning call the cycle issues —
bulk or per-item retry — carries only emails of a single group, so no
call ever mixes subjects of two pools.  Second conjunct: when every
group resolves a team and every bulk call succeeds, the cycle issues
exactly one bulk call per group, in group order, carrying all and only
that group's subjects to the team resolved for that group. -/
theorem batch_grouping (teams : List Team) (occ : Nat → Nat) (api : ApiOracle)
    (batch : List QItem) :
    (∀ c ∈ (process_invite_batch teams occ api batch).2,
      ∃ g ∈ dedupFirst (batch.map itemGid),
        ∀ e ∈ c.2, e ∈ (groupItems g batch).map (fun i => i.email)) ∧
    ((∀ g ∈ dedupFirst (batch.map itemGid),
        ∃ t, findAvailableTeam teams occ g = some t ∧
          api t.account_id ((groupItems g batch).map (fun i => i.email)) = .ok ()) →
      (process_invite_batch teams occ api batch).2 =
        (dedupFirst (batch.map itemGid)).map (fun g =>
          (((findAvailableTeam teams occ g).map (fun t => t.account_id)).getD "",
           (groupItems g batch).map (fun i => i.email)))) := by
  constructor
  · intro c hc
    unfold process_invite_batch at hc
    simp only [List.mem_flatten, List.mem_map] at hc
    obtain ⟨l, ⟨g, hg, rfl⟩, hcl⟩ := hc
    exact ⟨g, hg, processGroup_calls_emails teams occ api g (groupItems g batch) c hcl⟩
  · intro h
    unfold process_invite_batch
    exact flatten_calls_of_resolved teams occ api batch _ h

/-- Witness for C7: a batch with items for groups 1 and 2 and a team in
each group issues exactly two calls, one per group, never mixed. -/
theorem batch_grouping_witness :
    (∀ c ∈ (process_invite_batch
        [⟨1, "TA", "accA", 5, some 1, true⟩, ⟨2, "TB", "accB", 5, some 2, true⟩]
        (fun _ => 0) (fun _ _ => .ok ())
        [⟨"q1", "a@x.com", some "C", some 1, none⟩,
         ⟨"q2", "b@x.com", some "C", some 2, none⟩]).2,
      ∃ g ∈ dedupFirst
          ([⟨"q1", "a@x.com", some "C", some 1, none⟩,
            ⟨"q2", "b@x.com", some "C", some 2, none⟩].map itemGid),
        ∀ e ∈ c.2, e ∈ (groupItems g
          [⟨"q1", "a@x.com", some "C", some 1, none⟩,
           ⟨"q2", "b@x.com", some "C", some 2, none⟩]).map (fun i => i.email)) ∧
    (process_invite_batch
        [⟨1, "TA", "accA", 5, some 1, true⟩, ⟨2, "TB", "accB", 5, some 2, true⟩]
        (fun _ => 0) (fun _ _ => .ok ())
        [⟨"q1", "a@x.com", some "C", some 1, none⟩,
         ⟨"q2", "b@x.com", some "C", some 2, none⟩]).2 =
      [("accA", ["a@x.com"]), ("accB", ["b@x.com"])] := by
  have h := batch_grouping
    [⟨1, "TA", "accA", 5, some 1, true⟩, ⟨2, "TB", "accB", 5, some 2, true⟩]
    (fun _ => 0) (fun _ _ => .ok ())
    [⟨"q1", "a@x.com", some "C", some 1, none⟩,
     ⟨"q2", "b@x.com", some "C", some 2, none⟩]
  refine ⟨h.1, ?_⟩
  rw [h.2 ?hres]
  · rfl
  · intro g hg
    have hl : dedupFirst
        ([⟨"q1", "a@x.com", some "C", some 1, none⟩,
          ⟨"q2", "b@x.com", some "C", some 2, none⟩].map itemGid) = [1, 2] := by decide
    rw [hl] at hg
    simp only [List.mem_cons, List.mem_singleton, List.not_mem_nil, or_false] at hg
    rcases hg with rfl | rfl
    · exact ⟨⟨1, "TA", "accA", 5, some 1, true⟩, by decide, by decide⟩
    · exact ⟨⟨2, "TB", "accB", 5, some 2, true⟩, by decide, by decide⟩

/-- C8: when a group's bulk call fails with a ChatGPTAPIError, the
dispatcher re-issues the call once per subject of that group, in order;
each subject gets exactly one persisted record, determined solely by its
own individual retry: Success when the retry succeeds, terminal Failed
with the (truncated) error message retained when it fails — so one
subject's permanent failure never changes its siblings' outcomes, and
the call list shows the one bulk call followed by exactly one retry per
subject. -/
theorem per_item_retry (teams : List Team) (occ : Nat → Nat) (api : ApiOracle)
    (gid : Nat) (items : List QItem) (t : Team) (m : String)
    (hfind : findAvailableTeam teams occ gid = some t)
    (hfail : api t.account_id (items.map (fun i => i.email)) = .error m) :
    (processGroup teams occ api gid items).1 =
      items.map (fun i =>
        match api t.account_id [i.email] with
        | .ok _ => { email := i.email, team_id := some t.id, status := .success,
                     error_message := none }
        | .error m2 => { email := i.email, team_id := some t.id, status := .failed,
                         error_message := some (m2.take 200) }) ∧
    (processGroup teams occ api gid items).2 =
      (t.account_id, items.map (fun i => i.email)) ::
        items.map (fun i => (t.account_id, [i.email])) ∧
    (processGroup teams occ api gid items).1.map (fun r => r.email) =
      items.map (fun i => i.email) := by
  have h1 : (processGroup teams occ api gid items).1 =
      items.map (fun i =>
        match api t.account_id [i.email] with
        | .ok _ => { email := i.email, team_id := some t.id, status := .success,
                     error_message := none }
        | .error m2 => { email := i.email, team_id := some t.id, status := .failed,
                         error_message := some (m2.take 200) }) := by
    simp [processGroup, hfind, hfail]
  refine ⟨h1, by simp [processGroup, hfind, hfail], ?_⟩
  rw [h1, List.map_map]
  apply List.map_congr_left
  intro i _
  simp only [Function.comp_apply]
  cases api t.account_id [i.email] <;> rfl

set_option maxRecDepth 4000 in
/-- Witness for C8 at the spec's partial-failure scenario: a bulk call
for three subjects fails; individually a and b succeed while c fails
permanently — the records show exactly that 2/1 split, and the call
list shows the bulk call plus one retry per subject. -/
theorem per_item_retry_witness :
    (processGroup [⟨1, "T1", "acc1", 9, none, true⟩] (fun _ => 0)
        (fun _ es => if 1 < es.length then .error "rate limited"
                     else if es = ["c@x.com"] then .error "invalid email" else .ok ())
        0
        [⟨"q1", "a@x.com", some "C", none, none⟩,
         ⟨"q2", "b@x.com", some "C", none, none⟩,
         ⟨"q3", "c@x.com", some "C", none, none⟩]).1 =
      [{ email := "a@x.com", team_id := some 1, status := .success, error_message := none },
       { email := "b@x.com", team_id := some 1, status := .success, error_message := none },
       { email := "c@x.com", team_id := some 1, status := .failed,
         error_message := some ("invalid email".take 200) }] ∧
    (processGroup [⟨1, "T1", "acc1", 9, none, true⟩] (fun _ => 0)
        (fun _ es => if 1 < es.length then .error "rate limited"
                     else if es = ["c@x.com"] then .error "invalid email" else .ok ())
        0
        [⟨"q1", "a@x.com", some "C", none, none⟩,
         ⟨"q2", "b@x.com", some "C", none, none⟩,
         ⟨"q3", "c@x.com", some "C", none, none⟩]).2 =
      [("acc1", ["a@x.com", "b@x.com", "c@x.com"]),
       ("acc1", ["a@x.com"]), ("acc1", ["b@x.com"]), ("acc1", ["c@x.com"])] := by
  have h := per_item_retry [⟨1, "T1", "acc1", 9, none, true⟩] (fun _ => 0)
    (fun _ es => if 1 < es.length then .error "rate limited"
                 else if es = ["c@x.com"] then .error "invalid email" else .ok ())
    0
    [⟨"q1", "a@x.com", some "C", none, none⟩,
     ⟨"q2", "b@x.com", some "C", none, none⟩,
     ⟨"q3", "c@x.com", some "C", none, none⟩]
    ⟨1, "T1", "acc1", 9, none, true⟩ "rate limited" (by decide) (by decide)
  exact ⟨by rw [h.1]; decide, by rw [h.2.1]; rfl⟩

/-! ## Claim theorems: redeem endpoint control flow -/

/-- C4 counterexample: a successful POST /redeem does not return a
202 queue id before provisioning.  At a concrete state the endpoint
returns the final outcome itself — success flag, completion message and
the resolved team's name — and the provisioning-call trace at return
time already holds the external invite call, so the call was made
synchronously before the response; no queue is involved (enqueue_invite
has no caller anywhere in the repository). -/
theorem redeem_not_queued_counterexample :
    (use_redeem_code [⟨1, "C1", true, none, 0, 1, some 7⟩]
        [⟨1, "T1", "acc1", 5, some 7, true⟩] [] (fun _ => 0) (fun _ _ => .ok ())
        "A@x.com " "c1" 0).1 =
      .ok { success := true, message := "邀请已发送！请查收邮箱并接受邀请",
            team_name := some "T1" } ∧
    (use_redeem_code [⟨1, "C1", true, none, 0, 1, some 7⟩]
        [⟨1, "T1", "acc1", 5, some 7, true⟩] [] (fun _ => 0) (fun _ _ => .ok ())
        "A@x.com " "c1" 0).2.1 = [("acc1", ["a@x.com"])] := by
  exact ⟨by decide, by decide⟩

/-- C4 amended: a successful redeem consumes the code's use-unit and
then, still inside the request, resolves a team (the code's bound group,
else the LinuxDO group) and issues the provisioning call; the response
returned to the caller carries the final outcome (success message and
team name), not a queue id — the queue pipeline of tasks.py is not on
this path. -/
theorem redeem_synchronous (codes : List RedeemCode) (teams : List Team)
    (tgroups : List TeamGroup) (occ : Nat → Nat) (api : ApiOracle)
    (email v : String) (now : Nat) (c : RedeemCode) (codes1 : List RedeemCode) (t : Team)
    (hc : consume codes v now = (.ok c, codes1))
    (ht : (if pyTruthyNat c.group_id then
            get_available_team teams tgroups occ c.group_id none
          else get_available_team teams tgroups occ none (some "LinuxDO")) = some t)
    (hok : api t.account_id [pyStrip (pyLower email)] = .ok ()) :
    use_redeem_code codes teams tgroups occ api email v now =
      (.ok { success := true, message := "邀请已发送！请查收邮箱并接受邀请",
             team_name := some t.name },
       [(t.account_id, [pyStrip (pyLower email)])], codes1) := by
  simp [use_redeem_code, hc, ht, hok]

/-- Witness for the amended C4 theorem, exercising the LinuxDO-group
fallback: the code has no bound group, the team is found through the
group named LinuxDO, the call is issued synchronously and the committed
table shows the consumed use-unit. -/
theorem redeem_synchronous_witness :
    use_redeem_code [⟨2, "D8", true, none, 0, 3, none⟩]
        [⟨4, "LD", "accL", 5, some 9, true⟩] [⟨9, "LinuxDO"⟩]
        (fun _ => 0) (fun _ _ => .ok ()) " U@Y.com" "d8 " 0 =
      (.ok { success := true, message := "邀请已发送！请查收邮箱并接受邀请",
             team_name := some "LD" },
       [("accL", ["u@y.com"])], [⟨2, "D8", true, none, 1, 3, none⟩]) := by
  exact redeem_synchronous [⟨2, "D8", true, none, 0, 3, none⟩]
    [⟨4, "LD", "accL", 5, some 9, true⟩] [⟨9, "LinuxDO"⟩]
    (fun _ => 0) (fun _ _ => .ok ()) " U@Y.com" "d8 " 0
    ⟨2, "D8", true, none, 1, 3, none⟩ [⟨2, "D8", true, none, 1, 3, none⟩]
    ⟨4, "LD", "accL", 5, some 9, true⟩ (by decide) (by decide) (by decide)

/-! ## Claim theorems: worker loop -/

/-- C9: the worker loop exits only on cancellation.  First conjunct:
over any schedule of cycle events, the loop has exited exactly when a
CancelledError was raised in some cycle.  Second conjunct: a cycle that
raises any other exception is transparent — the run continues exactly
as if that cycle had not happened, so items handled in other cycles are
unaffected.  Remaining conjuncts: cancellation stops the loop at once,
and a normal cycle hands its batch to process_invite_batch and
continues. -/
theorem worker_loop_supervision :
    (∀ evs : List CycleEvent,
      (invite_worker_run evs).1 = true ↔ CycleEvent.raisedCancelled ∈ evs) ∧
    (∀ (m : String) (evs : List CycleEvent),
      invite_worker_run (CycleEvent.raisedException m :: evs) = invite_worker_run evs) ∧
    (∀ evs : List CycleEvent,
      invite_worker_run (CycleEvent.raisedCancelled :: evs) = (true, [])) ∧
    (∀ (b : List QItem) (evs : List CycleEvent),
      invite_worker_run (CycleEvent.normal b :: evs) =
        ((invite_worker_run evs).1, b :: (invite_worker_run evs).2)) := by
  refine ⟨?_, fun m evs => rfl, fun evs => rfl, fun b evs => rfl⟩
  intro evs
  induction evs with
  | nil => simp [invite_worker_run]
  | cons ev evs ih =>
    cases ev <;>
      simp [invite_worker_run, invite_worker_step, ih, List.mem_cons]

/-! ## Claim theorems: chunked batch_invite -/

theorem chunkListAux_flatten (bs : Nat) (hbs : 0 < bs) :
    ∀ (fuel : Nat) (xs : List String), xs.length ≤ fuel →
      (chunkListAux bs fuel xs).flatten = xs
  | fuel, [], _ => by cases fuel <;> rfl
  | 0, x :: xs, h => by simp at h
  | fuel + 1, x :: xs, h => by
    have ih := chunkListAux_flatten bs hbs fuel ((x :: xs).drop bs) (by
      simp only [List.length_drop, List.length_cons] at *
      omega)
    show ((x :: xs).take bs :: chunkListAux bs fuel ((x :: xs).drop bs)).flatten = x :: xs
    rw [List.flatten_cons, ih, List.take_append_drop]

theorem chunkList_flatten (bs : Nat) (hbs : 0 < bs) (xs : List String) :
    (chunkList bs xs).flatten = xs := by
  unfold chunkList
  rw [if_neg (by omega)]
  exact chunkListAux_flatten bs hbs xs.length xs (Nat.le_refl _)

/-- C10: batch_invite returns exactly one entry per input email, in
input order, on every path (whole-chunk success as well as chunk
failure followed by per-email retry); each entry carries that email and
either success with no error or failure with the error message. -/
theorem batch_invite_result_shape (api : List String → Except String Unit)
    (emails : List String) (bs : Nat) (hbs : 0 < bs) :
    (batch_invite api emails bs).map (fun r => r.email) = emails ∧
    (∀ r ∈ batch_invite api emails bs,
      (r.success = true ∧ r.error = none) ∨
      (r.success = false ∧ ∃ m, r.error = some m)) := by
  have hch : ∀ ch : List String,
      (match api ch with
       | .ok _ => ch.map (fun e => ({ email := e, success := true, error := none } : InviteResultM))
       | .error _ =>
         ch.map (fun e =>
           match api [e] with
           | .ok _ => ({ email := e, success := true, error := none } : InviteResultM)
           | .error m => { email := e, success := false, error := some m })).map
        (fun (r : InviteResultM) => r.email) = ch := by
    intro ch
    cases api ch with
    | ok u =>
      rw [List.map_map]
      exact (List.map_congr_left (fun e _ => rfl)).trans (List.map_id ch)
    | error m =>
      rw [List.map_map]
      refine (List.map_congr_left ?_).trans (List.map_id ch)
      intro e _
      simp only [Function.comp_apply]
      cases api [e] <;> rfl
  constructor
  · unfold batch_invite
    rw [List.map_flatten, List.map_map]
    calc ((chunkList bs emails).map _).flatten
        = ((chunkList bs emails).map id).flatten := by
          apply congrArg
          apply List.map_congr_left
          intro ch _
          simpa only [Function.comp_apply, id] using hch ch
      _ = emails := by rw [List.map_id]; exact chunkList_flatten bs hbs emails
  · intro r hr
    unfold batch_invite at hr
    simp only [List.mem_flatten, List.mem_map] at hr
    obtain ⟨l, ⟨ch, hmem, rfl⟩, hrl⟩ := hr
    cases hapi : api ch with
    | ok u =>
      rw [hapi] at hrl
      simp only [List.mem_map] at hrl
      obtain ⟨e, _, rfl⟩ := hrl
      exact Or.inl ⟨rfl, rfl⟩
    | error m =>
      rw [hapi] at hrl
      simp only [List.mem_map] at hrl
      obtain ⟨e, _, rfl⟩ := hrl
      cases api [e] with
      | ok u2 => exact Or.inl ⟨rfl, rfl⟩
      | error m2 => exact Or.inr ⟨rfl, m2, rfl⟩

/-- Witness for C10: three emails in chunks of two, where the first
chunk's bulk call fails and the per-email retries split 1/1, and the
second chunk succeeds; the result keeps one entry per email in input
order. -/
theorem batch_invite_result_shape_witness :
    ((batch_invite
        (fun es => if 1 < es.length then .error "rate"
                   else if es = ["b"] then .error "bad address" else .ok ())
        ["a", "b", "c"] 2).map (fun r => r.email) = ["a", "b", "c"]) ∧
    (∀ r ∈ batch_invite
        (fun es => if 1 < es.length then .error "rate"
                   else if es = ["b"] then .error "bad address" else .ok ())
        ["a", "b", "c"] 2,
      (r.success = true ∧ r.error = none) ∨
      (r.success = false ∧ ∃ m, r.error = some m)) := by
  exact batch_invite_result_shape
    (fun es => if 1 < es.length then .error "rate"
               else if es = ["b"] then .error "bad address" else .ok ())
    ["a", "b", "c"] 2 (by decide)

end TeamInvite
